import Mathlib

/-!
Verification development for `scripts/fuzz_runner.py`, the concurrent
fuzz-test orchestration engine of this repository.

The Python source is shallowly embedded below:
* Python strings are modelled as `String` (or `List Char` where the claim
  is about individual characters), floats used only as opaque timestamps
  are modelled as `Int`, process exit codes as `Int`.
* The in-place mutations of a `JobResult` performed by `stream_process`
  and `run_job` are modelled by explicit state passing; the sequence of
  writes to the `status` field is additionally modelled as an explicit
  trace (a list of status strings) where a claim is about the evolution
  of that field.
* The `asyncio` result-collection loop of `main_async` (lines 601-634)
  is modelled as a fold over the per-task outcomes; a task that ends in
  `asyncio.CancelledError` is modelled as an exceptional exit of the
  loop, because `CancelledError` derives from `BaseException` (not
  `Exception`) on the Python versions this script targets, so the
  `except Exception` handler at line 612 does not catch it.
-/

namespace FuzzRunner

/-! ## `sanitize_for_path` (source lines 89-96) -/

/-- The character class `[A-Za-z0-9._-]` of the regex at source line 91. -/
def allowedChar (c : Char) : Bool :=
  (65 ≤ c.toNat && c.toNat ≤ 90) || (97 ≤ c.toNat && c.toNat ≤ 122) ||
    (48 ≤ c.toNat && c.toNat ≤ 57) || c == '.' || c == '_' || c == '-'

/-- Model of `re.sub(r"[^A-Za-z0-9._-]+", "_", s)` (source line 91): every
maximal run of characters outside the class is replaced by a single `'_'`.
The Boolean flag records whether the previous character belonged to such a
run (so the run is collapsed to one underscore). -/
def collapseSub : List Char → Bool → List Char
  | [], _ => []
  | c :: cs, prevBad =>
    if allowedChar c then c :: collapseSub cs false
    else if prevBad then collapseSub cs true
    else '_' :: collapseSub cs true

/-! SHA-1, as used by `hashlib.sha1(safe.encode()).hexdigest()[:8]` at
source lines 93-95.  `safe` consists of ASCII characters only (every
character is either in the regex class or the replacement `'_'`), so
`safe.encode()` is exactly the list of code points. -/

/-- Truncation to a 32-bit word. -/
def w32 (n : Nat) : Nat := n % 4294967296

/-- 32-bit left rotation. -/
def rotl (k x : Nat) : Nat := w32 ((x <<< k) ||| (x >>> (32 - k)))

/-- Big-endian 8-byte encoding of the bit length, for SHA-1 padding. -/
def be8 (n : Nat) : List Nat :=
  [(n >>> 56) % 256, (n >>> 48) % 256, (n >>> 40) % 256, (n >>> 32) % 256,
   (n >>> 24) % 256, (n >>> 16) % 256, (n >>> 8) % 256, n % 256]

/-- SHA-1 message padding: append `0x80`, zero bytes up to 56 mod 64, and
the 64-bit big-endian bit length. -/
def sha1pad (msg : List Nat) : List Nat :=
  msg ++ 128 :: List.replicate ((119 - msg.length % 64) % 64) 0 ++ be8 (msg.length * 8)

/-- Group a byte list into big-endian 32-bit words. -/
def toWords : List Nat → List Nat
  | a :: b :: c :: d :: rest => (a * 16777216 + b * 65536 + c * 256 + d) :: toWords rest
  | _ => []

/-- Extend a 16-word block to the 80-word SHA-1 message schedule; the
counter is the number of words still to append. -/
def extendSched : List Nat → Nat → List Nat
  | ws, 0 => ws
  | ws, k + 1 =>
    let t := ws.length
    let x := rotl 1 ((ws.getD (t - 3) 0 ^^^ ws.getD (t - 8) 0) ^^^
      (ws.getD (t - 14) 0 ^^^ ws.getD (t - 16) 0))
    extendSched (ws ++ [x]) k

/-- The SHA-1 round function for round `t`. -/
def sha1F (t b c d : Nat) : Nat :=
  if t < 20 then (b &&& c) ||| ((b ^^^ 4294967295) &&& d)
  else if t < 40 then (b ^^^ c) ^^^ d
  else if t < 60 then (b &&& c) ||| (b &&& d) ||| (c &&& d)
  else (b ^^^ c) ^^^ d

/-- The SHA-1 round constant for round `t`. -/
def sha1K (t : Nat) : Nat :=
  if t < 20 then 1518500249
  else if t < 40 then 1859775393
  else if t < 60 then 2400959708
  else 3395469782

/-- One SHA-1 compression of a single 80-word schedule. -/
def sha1Block (sched : List Nat) (h : Nat × Nat × Nat × Nat × Nat) :
    Nat × Nat × Nat × Nat × Nat :=
  let f := (List.range 80).foldl
    (fun st t =>
      (w32 (rotl 5 st.1 + sha1F t st.2.1 st.2.2.1 st.2.2.2.1 + st.2.2.2.2 +
         sha1K t + sched.getD t 0),
       st.1, rotl 30 st.2.1, st.2.2.1, st.2.2.2.1))
    h
  (w32 (h.1 + f.1), w32 (h.2.1 + f.2.1), w32 (h.2.2.1 + f.2.2.1),
   w32 (h.2.2.2.1 + f.2.2.2.1), w32 (h.2.2.2.2 + f.2.2.2.2))

/-- Iterate the compression function over the blocks (the counter is the
number of 16-word blocks remaining). -/
def sha1Loop : Nat → List Nat → (Nat × Nat × Nat × Nat × Nat) →
    Nat × Nat × Nat × Nat × Nat
  | 0, _, h => h
  | k + 1, ws, h => sha1Loop k (ws.drop 16) (sha1Block (extendSched (ws.take 16) 64) h)

/-- One lower-case hexadecimal digit character, as produced by
`hexdigest()`: code points 48-57 for 0-9 and 97-102 for a-f. -/
def hexChar (n : Nat) : Char :=
  if n % 16 < 10 then Char.ofNat (48 + n % 16) else Char.ofNat (87 + n % 16)

/-- Eight hex characters of one 32-bit word, most significant nibble first. -/
def hexWord (w : Nat) : List Char :=
  (List.range 8).map (fun i => hexChar ((w >>> (4 * (7 - i))) % 16))

/-- `hashlib.sha1(bytes).hexdigest()` as a character list. -/
def sha1hex (msg : List Nat) : List Char :=
  let ws := toWords (sha1pad msg)
  let h := sha1Loop (ws.length / 16) ws
    (1732584193, 4023233417, 2562383102, 271733878, 3285377520)
  hexWord h.1 ++ hexWord h.2.1 ++ hexWord h.2.2.1 ++ hexWord h.2.2.2.1 ++
    hexWord h.2.2.2.2

/-- `sanitize_for_path` (source lines 89-96), on strings modelled as
character lists: substitute disallowed runs by `'_'`; if the result is
longer than 150 characters, keep the first 120 characters followed by
`'_'` and the first 8 hex digits of the SHA-1 of the substituted string. -/
def sanitize_for_path (s : List Char) : List Char :=
  let safe := collapseSub s false
  if 150 < safe.length then
    safe.take 120 ++ '_' :: (sha1hex (safe.map Char.toNat)).take 8
  else safe

/-! ## `stream_process` (source lines 166-200)

`stream_process` sets `result.status = "running"` after spawning the
process (line 176), then for each output line appends the line to the
durable log file (line 189) and to the `last_lines` tail, popping the
oldest entry when the tail exceeds `tail_max` (lines 192-194); after EOF
it records the exit code and sets the status to `"passed"` for exit code
0 and `"failed"` otherwise (line 200). -/

/-- `tail_max = 8` (source line 179). -/
def tail_max : Nat := 8

/-- One iteration of the tail update (source lines 192-194):
`last_lines.append(sline)` then `if len(last_lines) > tail_max:
last_lines.pop(0)`. -/
def pushTail (tail : List String) (line : String) : List String :=
  let t := tail ++ [line]
  if tail_max < t.length then t.drop 1 else t

/-- The in-memory tail retained after streaming a given line sequence,
starting from the empty tail of source line 180. -/
def streamTail (lines : List String) : List String := lines.foldl pushTail []

/-- The durable log produced by streaming: every line is written to the
log file (source line 189). -/
def streamLog (lines : List String) : List String := lines.foldl (fun lg l => lg ++ [l]) []

/-- The status recorded by `stream_process` at source line 200 once the
process has exited. -/
def streamFinalStatus (exitCode : Int) : String :=
  if exitCode = 0 then "passed" else "failed"

/-! ## `run_job` (source lines 225-294)

Per phase, the external process either exits with a code, or the
coroutine is cancelled mid-phase (`asyncio.CancelledError`), or some
other exception is raised. -/

/-- Outcome of driving one phase of a job. -/
inductive PhaseOutcome where
  | exited (code : Int)
  | cancelledSig
  | excepted
deriving DecidableEq, Repr

/-- Does a phase outcome represent a compile phase that exited 0 (the
guard of source line 272)? -/
def compileZero : PhaseOutcome → Bool
  | .exited c => c == 0
  | _ => false

/-- How the `run_job` coroutine terminates, as seen by the collection
loop of `main_async`: it either returns its `JobResult` (whose `status`
field is recorded), or raises an ordinary exception, or raises
`asyncio.CancelledError` (re-raised at source line 287 after the status
has been set to `"cancelled"`).  An ordinary exception carries whether
the job's output directory `out_dir/<sanitized-id>/` existed when the
exception escaped: the collection loop's handler appends a traceback to
`out_dir/<sanitized-id>/build.log` (line 627), which raises
`FileNotFoundError` when that directory was never created. -/
inductive JobExit where
  | returned (s : String)
  | raisedExc (outDirMade : Bool)
  | raisedCancel
deriving DecidableEq, Repr

/-- Outcome of the isolation step (`shutil.copytree` at source line 257,
copying `base_dir` to `out_dir/<sanitized-id>/work`).  `copytree` lists
the source directory before creating the destination, so when the base
directory is unreadable or the destination cannot be created it raises
with `out_dir/<sanitized-id>/` never having been made
(`outDirMade = false`); a failure later during the copy leaves the
partially created destination in place (`outDirMade = true`). -/
inductive IsoOutcome where
  | ok
  | failed (outDirMade : Bool)
deriving DecidableEq, Repr

/-- The observable outcome of `run_job`: how the coroutine exits, and
whether the compile-phase and run-phase processes were spawned. -/
structure RunJobOut where
  exitR : JobExit
  compileInvoked : Bool
  runInvoked : Bool
deriving DecidableEq, Repr

/-- Model of `run_job` (source lines 225-294).
* isolation failure: `shutil.copytree` at line 257 raises; the exception
  is not caught inside `run_job`, so neither phase runs, and whether the
  job's output directory exists is determined by how far `copytree` got.
* compile phase (lines 262-273): `stream_process` is not wrapped in a
  `try`, so a cancellation or exception propagates (after successful
  isolation the output directory exists: `copytree` created it as the
  parent of `work`); on exit code `c ≠ 0` the result (status `"failed"`
  from line 200) is returned with the run phase skipped (line 273).
* run phase (lines 275-294): wrapped in `try`; cancellation sets the
  status to `"cancelled"` and re-raises (lines 281-287); any other
  exception sets the status to `"failed"` and returns (lines 288-294);
  a normal exit records `"passed"`/`"failed"` per line 200. -/
def run_job_model (iso : IsoOutcome) (co ro : PhaseOutcome) : RunJobOut :=
  match iso with
  | .failed d => ⟨.raisedExc d, false, false⟩
  | .ok =>
    match co with
    | .cancelledSig => ⟨.raisedCancel, true, false⟩
    | .excepted => ⟨.raisedExc true, true, false⟩
    | .exited c =>
      if c = 0 then
        match ro with
        | .exited r => ⟨.returned (streamFinalStatus r), true, true⟩
        | .cancelledSig => ⟨.raisedCancel, true, true⟩
        | .excepted => ⟨.returned "failed", true, true⟩
      else ⟨.returned "failed", true, false⟩

/-- The trace of values successively written to `result.status` during
one job, starting from `"queued"` (line 237).  `stream_process` writes
`"running"` on spawn (line 176) and a terminal value on exit (line 200);
the run-phase exception handlers write `"cancelled"` (line 282) or
`"failed"` (line 289).  A phase that is cancelled or raises leaves the
last written value in place. -/
def phaseTrace : PhaseOutcome → List String
  | .exited c => ["running", streamFinalStatus c]
  | .cancelledSig => ["running"]
  | .excepted => ["running"]

/-- Status writes of the run phase, including the handlers at source
lines 281-294. -/
def runPhaseTrace : PhaseOutcome → List String
  | .exited r => ["running", streamFinalStatus r]
  | .cancelledSig => ["running", "cancelled"]
  | .excepted => ["running", "failed"]

/-- The full status trace of a job driven by `run_job`. -/
def run_job_trace (isoOk : Bool) (co ro : PhaseOutcome) : List String :=
  "queued" ::
    (if isoOk then
      phaseTrace co ++ (if compileZero co then runPhaseTrace ro else [])
    else [])

/-- The terminal statuses named by the specification (the source never
produces `"errored"`). -/
def isTerminalStatus (s : String) : Bool :=
  s == "passed" || s == "failed" || s == "cancelled" || s == "errored"

/-- A status trace is absorbing when every terminal status that appears
is followed only by itself (once reached, it never changes again). -/
def absorbingTrace : List String → Bool
  | [] => true
  | s :: rest =>
    (if isTerminalStatus s then rest.all (· == s) else true) && absorbingTrace rest

/-! ## The result-collection loop of `main_async` (source lines 601-634)

The loop repeatedly waits for a completed task, reads `t.result()`, and
stores the `JobResult` under its execution id.  A task that raised an
ordinary exception is replaced by a fresh `JobResult` with status
`"failed"` and exit code -1, and a traceback is appended to the job's
log file (lines 612-629).  Two ways this loop itself dies, losing the
whole result set:
* `t.result()` of a cancelled task raises `asyncio.CancelledError`,
  which the `except Exception` handler at line 612 does not catch (it
  derives from `BaseException`);
* the handler's own log append at line 627 raises `FileNotFoundError`
  when the job's output directory was never created (isolation failed
  before `copytree` made the destination), and that exception is raised
  inside the `except` suite, so it propagates out of `main_async`.
In either case no result set (and no report) is produced at all. -/

/-- Fold of the collection loop over the per-task outcomes: yields the
final association of execution ids to recorded statuses, or an
exceptional exit when some task was cancelled or when the handler's log
append failed. -/
def drain_model : List (String × RunJobOut) → Except Unit (List (String × String))
  | [] => .ok []
  | (i, r) :: rest =>
    match r.exitR with
    | .raisedCancel => .error ()
    | .raisedExc d =>
      if d then (drain_model rest).map (fun rs => (i, "failed") :: rs)
      else .error ()
    | .returned s => (drain_model rest).map (fun rs => (i, s) :: rs)

/-- Does a job's exit crash the collection loop (cancellation, or an
exception whose handling trips over the missing output directory)? -/
def crashesDrain (r : RunJobOut) : Bool :=
  match r.exitR with
  | .raisedCancel => true
  | .raisedExc d => !d
  | _ => false

/-- Total coverage: the collection loop completes and records exactly one
status per submitted execution id, in submission order. -/
def totalCoverage (jobs : List (String × RunJobOut)) : Bool :=
  match drain_model jobs with
  | .ok rs => rs.map Prod.fst == jobs.map Prod.fst
  | .error _ => false

/-- Jobs produced by running `run_job` on a list of
(id, isolation outcome, compile outcome, run outcome) descriptors. -/
def run_job_jobs (specs : List (String × IsoOutcome × PhaseOutcome × PhaseOutcome)) :
    List (String × RunJobOut) :=
  specs.map (fun s => (s.1, run_job_model s.2.1 s.2.2.1 s.2.2.2))

/-! ## Overall exit codes (source lines 549-551 and 661-670) -/

/-- `return 1` when the filtered execution list is empty (line 551). -/
def no_execs_exit_code : Int := 1

/-- The final `return 0 if failed == 0 else 2` (line 670), where `failed`
counts results with status `"failed"` (line 664). -/
def overall_exit_code (rs : List (String × String)) : Int :=
  if rs.countP (fun r => r.2 == "failed") = 0 then 0 else 2

/-! ## The `copytree` exclusion predicate (source lines 255-256)

```
def _ignore(dir, names):
    return set(n for n in names if n in (".git", ".idea", "target", "fuzz-out")) \
        or {n for n in names if n.startswith("hs_err_pid") or n.startswith("crash-")}
```
Python `or` evaluates to its first operand whenever that operand is a
non-empty (truthy) set. -/

/-- The fixed directory names of the first comprehension. -/
def fixedIgnoreNames : List String := [".git", ".idea", "target", "fuzz-out"]

/-- Model of Python `str.startswith`: prefix test on the character
sequence. -/
def startsWithModel (s pre : String) : Bool := pre.data.isPrefixOf s.data

/-- Is a name a crash artifact per the second comprehension? -/
def crashArtifactName (n : String) : Bool :=
  startsWithModel n "hs_err_pid" || startsWithModel n "crash-"

/-- Model of `_ignore`: the names of one directory that `copytree` will
skip.  The `or` returns the first set when it is non-empty. -/
def copytree_ignore (names : List String) : List String :=
  let s1 := names.filter (fun n => fixedIgnoreNames.contains n)
  if s1.isEmpty then names.filter crashArtifactName else s1

/-! ## `make_report_json` (source lines 348-409) -/

/-- The `summary` object of the report: `total`/`passed`/`failed`/
`cancelled` are counted over `results.values()` (lines 358-361), and
`duration_seconds` is `end_ts - start_ts if total else 0` (line 406).
Timestamps are modelled as integers. -/
structure ReportSummary where
  total : Nat
  passed : Nat
  failed : Nat
  cancelled : Nat
  duration_seconds : Int
deriving DecidableEq, Repr

/-- The summary computation of `make_report_json`; `rs` is
`results.items()` as a list of (execution id, status) pairs. -/
def make_report_summary (rs : List (String × String)) (start_ts end_ts : Int) :
    ReportSummary where
  total := rs.length
  passed := rs.countP (fun r => r.2 == "passed")
  failed := rs.countP (fun r => r.2 == "failed")
  cancelled := rs.countP (fun r => r.2 == "cancelled")
  duration_seconds := if rs.length ≠ 0 then end_ts - start_ts else 0

/-- Insertion into a list sorted by execution id (first component). -/
def insertById (x : String × String) : List (String × String) → List (String × String)
  | [] => [x]
  | y :: ys => if x.1 ≤ y.1 then x :: y :: ys else y :: insertById x ys

/-- The per-job entry list `tests` of the report, built from
`sorted(results.items())` (line 375): the same pairs, sorted by id. -/
def report_tests (rs : List (String × String)) : List (String × String) :=
  rs.foldr insertById []

/-! ## The admission ceiling (source lines 570-584)

`main_async` creates `sem = asyncio.Semaphore(args.jobs)` and `run_one`
executes the whole of `run_job` — isolation, compile phase and run phase
— inside `async with sem`.  The scheduler is modelled as a transition
system counting queued, admitted (inside the semaphore) and finished
jobs; a job is in a state of `{preparing, compiling, running}` exactly
while it holds a semaphore slot. -/

/-- Counts of jobs by scheduling stage. -/
structure SchedState where
  waiting : Nat
  active : Nat
  finished : Nat
deriving DecidableEq, Repr

/-- One scheduler transition for ceiling `c`: a waiting job is admitted
only when a semaphore slot is free (`active < c`), and an active job may
finish at any time (releasing its slot). -/
inductive SchedStep (c : Nat) : SchedState → SchedState → Prop
  | enter (w a f : Nat) : a < c → SchedStep c ⟨w + 1, a, f⟩ ⟨w, a + 1, f⟩
  | finish (w a f : Nat) : SchedStep c ⟨w, a + 1, f⟩ ⟨w, a, f + 1⟩

/-- States reachable from the initial state of a run with `n` submitted
executions (all queued, none admitted). -/
inductive SchedReach (c n : Nat) : SchedState → Prop
  | init : SchedReach c n ⟨n, 0, 0⟩
  | step {s s' : SchedState} : SchedReach c n s → SchedStep c s s' → SchedReach c n s'

/-! ## Helper lemmas -/

lemma pushTail_eq_drop (acc : List String) (l : String) (h : acc.length ≤ 8) :
    pushTail acc l = (acc ++ [l]).drop (acc.length + 1 - 8) := by
  simp only [pushTail, tail_max]
  by_cases hc : acc.length = 8
  · have h8 : 8 < (acc ++ [l]).length := by simp [hc]
    rw [if_pos h8]
    have h1 : acc.length + 1 - 8 = 1 := by omega
    rw [h1]
  · have h8 : ¬ 8 < (acc ++ [l]).length := by simp; omega
    rw [if_neg h8]
    have h0 : acc.length + 1 - 8 = 0 := by omega
    rw [h0, List.drop_zero]

lemma length_pushTail (acc : List String) (l : String) (h : acc.length ≤ 8) :
    (pushTail acc l).length ≤ 8 := by
  rw [pushTail_eq_drop acc l h]
  simp only [List.length_drop, List.length_append, List.length_singleton]
  omega

lemma foldl_pushTail_eq (lines : List String) :
    ∀ acc : List String, acc.length ≤ 8 →
      lines.foldl pushTail acc = (acc ++ lines).drop (acc.length + lines.length - 8) := by
  induction lines with
  | nil =>
    intro acc h
    simp only [List.foldl_nil, List.append_nil, List.length_nil, Nat.add_zero]
    rw [Nat.sub_eq_zero_of_le h, List.drop_zero]
  | cons l ls ih =>
    intro acc h
    rw [List.foldl_cons, ih _ (length_pushTail acc l h), pushTail_eq_drop acc l h]
    have hle : acc.length + 1 - 8 ≤ (acc ++ [l]).length := by simp; omega
    have hd : ((acc ++ [l]).drop (acc.length + 1 - 8)).length
        = acc.length + 1 - (acc.length + 1 - 8) := by
      simp only [List.length_drop, List.length_append, List.length_singleton]
    rw [← List.drop_append_of_le_length hle, List.drop_drop, hd]
    have hidx : acc.length + 1 - 8 + (acc.length + 1 - (acc.length + 1 - 8) +
        ls.length - 8) = acc.length + (l :: ls).length - 8 := by
      simp only [List.length_cons]
      omega
    rw [hidx, List.append_assoc, List.singleton_append]

lemma foldl_snoc_eq (lines : List String) :
    ∀ acc : List String, lines.foldl (fun lg l => lg ++ [l]) acc = acc ++ lines := by
  induction lines with
  | nil => intro acc; simp
  | cons l ls ih => intro acc; simp [ih]

lemma collapseSub_all (l : List Char) : ∀ b : Bool, (collapseSub l b).all allowedChar = true := by
  induction l with
  | nil => intro b; rfl
  | cons c cs ih =>
    intro b
    unfold collapseSub
    by_cases hc : allowedChar c = true
    · simp [hc, ih false]
    · by_cases hb : b = true
      · simp [hc, hb, ih true]
      · simp only [Bool.not_eq_true] at hb
        simp [hc, hb, ih true, show allowedChar '_' = true from by decide]

lemma hexChar_allowed (n : Nat) : allowedChar (hexChar n) = true := by
  have h : n % 16 < 16 := Nat.mod_lt _ (by norm_num)
  unfold hexChar
  set m := n % 16 with hm
  interval_cases m <;> rfl

lemma hexWord_allowed (w : Nat) : (hexWord w).all allowedChar = true := by
  rw [List.all_eq_true]
  intro x hx
  simp only [hexWord, List.mem_map] at hx
  obtain ⟨i, _, rfl⟩ := hx
  exact hexChar_allowed _

lemma sha1hex_allowed (m : List Nat) : (sha1hex m).all allowedChar = true := by
  simp only [sha1hex, List.all_append]
  simp [hexWord_allowed]

lemma sha1hex_length (m : List Nat) : (sha1hex m).length = 40 := by
  simp [sha1hex, hexWord]

lemma all_take {p : Char → Bool} {l : List Char} (h : l.all p = true) (n : Nat) :
    (l.take n).all p = true := by
  rw [List.all_eq_true] at h ⊢
  intro x hx
  exact h x ((List.take_sublist n l).subset hx)

/-! ## Claims -/

/-- Claim C7: for a process that emits `N` lines with ring-buffer capacity
8, the retained tail after completion contains exactly the last
`min(N, 8)` lines in original order, the tail never exceeds 8 lines at
any point during streaming (i.e. after any prefix of the emitted lines),
and the durable log file contains all `N` lines. -/
theorem C7_stream_tail_spec (lines : List String) :
    streamTail lines = lines.drop (lines.length - tail_max) ∧
    (streamTail lines).length = min lines.length tail_max ∧
    (∀ k : Nat, (streamTail (lines.take k)).length ≤ tail_max) ∧
    streamLog lines = lines := by
  have hmain : streamTail lines = lines.drop (lines.length - 8) := by
    have := foldl_pushTail_eq lines [] (by simp)
    simpa [streamTail] using this
  refine ⟨by simpa [tail_max] using hmain, ?_, ?_, by simpa [streamLog] using foldl_snoc_eq lines []⟩
  · rw [hmain]
    simp only [List.length_drop, tail_max]
    omega
  · intro k
    have hk := foldl_pushTail_eq (lines.take k) [] (by simp)
    simp only [List.nil_append, List.length_nil, Nat.zero_add] at hk
    rw [streamTail, hk]
    simp only [List.length_drop, tail_max]
    omega

/-- Claim C8: evaluation of the `copytree` exclusion predicate at the
failing directory listing `[".git", "crash-1"]`.  Because the two set
comprehensions at source line 256 are combined with Python `or` (which
returns the first set whenever it is non-empty) instead of a union, the
crash artifact `"crash-1"` is not excluded even though it matches the
crash-artifact pattern: the ignore set is exactly `{".git"}`. -/
theorem C8_copytree_ignore_misses_crash_artifacts :
    copytree_ignore [".git", "crash-1"] = [".git"] ∧
    crashArtifactName "crash-1" = true ∧
    ".git" ∈ fixedIgnoreNames := by
  refine ⟨by decide, by decide, by decide⟩

set_option maxRecDepth 4000 in
/-- Claim C10, counterexample: on an input of 140 allowed characters,
`sanitize_for_path` returns the input unchanged (its length, 140, does
not exceed the 150 threshold of source line 92), so the output length
exceeds the claimed bound of 129. -/
theorem C10_sanitize_length_cex :
    (sanitize_for_path (List.replicate 140 'a')).length = 140 ∧
    ¬ (sanitize_for_path (List.replicate 140 'a')).length ≤ 129 := by
  refine ⟨by decide, by decide⟩

/-- Claim C10 (amended): for every input string `s`, `sanitize_for_path s`
contains only characters from `[A-Za-z0-9._-]` and has length at most 150
(not 129: inputs whose substituted form is longer than 150 are shortened
to exactly 129 characters, all others are returned with their own length,
which may be as large as 150); the function is deterministic. -/
theorem C10_sanitize_for_path_spec (s t : List Char) :
    (sanitize_for_path s).all allowedChar = true ∧
    (sanitize_for_path s).length ≤ 150 ∧
    (s = t → sanitize_for_path s = sanitize_for_path t) := by
  have hsafe := collapseSub_all s false
  refine ⟨?_, ?_, fun h => h ▸ rfl⟩
  · simp only [sanitize_for_path]
    by_cases hlen : 150 < (collapseSub s false).length
    · rw [if_pos hlen]
      rw [List.all_append, List.all_cons]
      rw [all_take hsafe 120, all_take (sha1hex_allowed _) 8]
      rfl
    · rw [if_neg hlen]
      exact hsafe
  · simp only [sanitize_for_path]
    by_cases hlen : 150 < (collapseSub s false).length
    · rw [if_pos hlen]
      simp only [List.length_append, List.length_cons, List.length_take,
        sha1hex_length]
      omega
    · rw [if_neg hlen]
      omega

/-- Claim C5, counterexample: for a job whose compile phase and run phase
both exit 0, the status trace written by `run_job` is
`queued, running, passed, running, passed`: the terminal status
`"passed"` reached at the end of the compile phase (source line 200) is
revisited — the status is set back to `"running"` when the run phase
starts — so terminal states are not absorbing. -/
theorem C5_terminal_revisited_cex :
    run_job_trace true (PhaseOutcome.exited 0) (PhaseOutcome.exited 0)
      = ["queued", "running", "passed", "running", "passed"] ∧
    absorbingTrace (run_job_trace true (PhaseOutcome.exited 0) (PhaseOutcome.exited 0))
      = false := by
  refine ⟨by decide, by decide⟩

/-- Claim C5 (amended): a Job's status trace is absorbing — no terminal
status, once written, is ever changed — in every scenario except the one
the counterexample exhibits: when isolation succeeds and the compile
phase exits 0, the compile phase ends by writing the terminal status
`"passed"`, which is then overwritten by `"running"` when the run phase
starts; the status written at the end of the job's final phase is never
changed afterwards. -/
theorem C5_trace_absorbing_spec (isoOk : Bool) (co ro : PhaseOutcome) :
    absorbingTrace (run_job_trace isoOk co ro) = !(isoOk && compileZero co) := by
  cases isoOk with
  | false => rfl
  | true =>
    rcases co with c | _ | _
    · by_cases hc : c = 0
      · subst hc
        rcases ro with r | _ | _
        · by_cases hr : r = 0
          · subst hr; rfl
          · simp only [run_job_trace, phaseTrace, runPhaseTrace, streamFinalStatus,
              if_neg hr]
            decide
        · rfl
        · rfl
      · have hb : (c == 0) = false := by simp [hc]
        simp only [run_job_trace, phaseTrace, compileZero, streamFinalStatus, hb,
          if_neg hc, Bool.false_eq_true, if_false, List.append_nil, Bool.and_false,
          Bool.not_false]
        decide
    · rfl
    · rfl

/-- Claim C2: if the compile-phase process exits with a non-zero code
`c`, the job's terminal status is `"failed"` and the run phase is never
invoked; moreover, across all scenarios, the run phase is invoked exactly
when isolation succeeded and the compile phase exited with code 0. -/
theorem C2_compile_gate (iso : IsoOutcome) (co ro : PhaseOutcome) (c : Int) (h : c ≠ 0) :
    (run_job_model IsoOutcome.ok (PhaseOutcome.exited c) ro).exitR
      = JobExit.returned "failed" ∧
    (run_job_model IsoOutcome.ok (PhaseOutcome.exited c) ro).runInvoked = false ∧
    ((run_job_model iso co ro).runInvoked = true ↔
      iso = IsoOutcome.ok ∧ compileZero co = true) := by
  refine ⟨by simp [run_job_model, h], by simp [run_job_model, h], ?_⟩
  cases iso with
  | failed d => simp [run_job_model]
  | ok =>
    rcases co with c' | _ | _
    · by_cases hc : c' = 0
      · subst hc
        rcases ro with r | _ | _ <;> simp [run_job_model, compileZero]
      · rcases ro with r | _ | _ <;> simp [run_job_model, compileZero, hc]
    · simp [run_job_model, compileZero]
    · simp [run_job_model, compileZero]

/-- Claim C2, witness: a compile phase exiting 1 yields status `"failed"`
with no run phase. -/
theorem C2_compile_gate_witness :
    (run_job_model IsoOutcome.ok (PhaseOutcome.exited 1) (PhaseOutcome.exited 0)).exitR
      = JobExit.returned "failed" ∧
    (run_job_model IsoOutcome.ok (PhaseOutcome.exited 1) (PhaseOutcome.exited 0)).runInvoked
      = false ∧
    ((run_job_model IsoOutcome.ok (PhaseOutcome.exited 1) (PhaseOutcome.exited 0)).runInvoked
        = true ↔
      IsoOutcome.ok = IsoOutcome.ok ∧ compileZero (PhaseOutcome.exited 1) = true) :=
  C2_compile_gate IsoOutcome.ok (PhaseOutcome.exited 1) (PhaseOutcome.exited 0) 1 (by decide)

lemma drain_ok_of_no_crash :
    ∀ jobs : List (String × RunJobOut), jobs.all (fun j => !crashesDrain j.2) = true →
      ∃ rs, drain_model jobs = .ok rs ∧ rs.map Prod.fst = jobs.map Prod.fst := by
  intro jobs
  induction jobs with
  | nil => intro _; exact ⟨[], rfl, rfl⟩
  | cons j rest ih =>
    intro h
    rw [List.all_cons, Bool.and_eq_true] at h
    obtain ⟨rs, hok, hids⟩ := ih h.2
    obtain ⟨i, r⟩ := j
    rcases hr : r.exitR with s | d | _
    · exact ⟨(i, s) :: rs, by simp [drain_model, hr, hok, Except.map], by simp [hids]⟩
    · have h1 := h.1
      have hd : d = true := by
        simp [crashesDrain, hr] at h1
        exact h1
      subst hd
      exact ⟨(i, "failed") :: rs, by simp [drain_model, hr, hok, Except.map],
        by simp [hids]⟩
    · have h1 := h.1
      simp [crashesDrain, hr] at h1

/-- Every status that `run_job` can return (as opposed to raising) is
`"passed"` or `"failed"`. -/
lemma run_job_model_returned (iso : IsoOutcome) (co ro : PhaseOutcome) (s : String)
    (h : (run_job_model iso co ro).exitR = JobExit.returned s) :
    s = "passed" ∨ s = "failed" := by
  cases iso with
  | failed d => simp [run_job_model] at h
  | ok =>
    rcases co with c | _ | _
    · by_cases hc : c = 0
      · subst hc
        rcases ro with r | _ | _
        · by_cases hr : r = 0
          · subst hr
            simp [run_job_model, streamFinalStatus] at h
            left; exact h.symm
          · simp [run_job_model, streamFinalStatus, hr] at h
            right; exact h.symm
        · simp [run_job_model] at h
        · simp [run_job_model] at h
          right; exact h.symm
      · simp [run_job_model, hc] at h
        right; exact h.symm
    · simp [run_job_model] at h
    · simp [run_job_model] at h

/-- If the collection loop completes, every recorded status is
`"passed"` or `"failed"` (assuming each submitted job only returns such
statuses, as `run_job` does). -/
lemma drain_statuses :
    ∀ jobs : List (String × RunJobOut),
      (∀ j ∈ jobs, ∀ s, j.2.exitR = JobExit.returned s → s = "passed" ∨ s = "failed") →
      ∀ rs, drain_model jobs = .ok rs → ∀ r ∈ rs, r.2 = "passed" ∨ r.2 = "failed" := by
  intro jobs
  induction jobs with
  | nil =>
    intro _ rs h r hr
    simp only [drain_model] at h
    cases h
    simp at hr
  | cons j rest ih =>
    intro hj rs h r hr
    obtain ⟨i, jr⟩ := j
    rcases he : jr.exitR with s | d | _ <;>
      simp only [drain_model, he] at h
    · rcases hrest : drain_model rest with e | rs'
      · rw [hrest] at h; cases h
      · rw [hrest] at h
        simp only [Except.map, Except.ok.injEq] at h
        subst h
        rcases List.mem_cons.mp hr with hhead | htail
        · subst hhead
          exact hj (i, jr) (List.mem_cons_self _ _) s he
        · exact ih (fun j hjm => hj j (List.mem_cons_of_mem _ hjm)) rs' hrest r htail
    · cases d with
      | false =>
        rw [if_neg (by decide)] at h
        cases h
      | true =>
        rw [if_pos (by decide)] at h
        rcases hrest : drain_model rest with e | rs'
        · rw [hrest] at h; cases h
        · rw [hrest] at h
          simp only [Except.map, Except.ok.injEq] at h
          subst h
          rcases List.mem_cons.mp hr with hhead | htail
          · subst hhead; right; rfl
          · exact ih (fun j hjm => hj j (List.mem_cons_of_mem _ hjm)) rs' hrest r htail
    · cases h

/-- Claim C1: evaluation at the failing input.  For a single submitted
execution whose run phase is cancelled mid-run, `run_job` re-raises
`asyncio.CancelledError` (source line 287); the collection loop's
`except Exception` handler (line 612) does not catch it, so the loop
terminates exceptionally and yields no JobResult set at all — total
coverage fails. -/
theorem C1_cancelled_job_loses_results :
    totalCoverage
      [("id0", run_job_model IsoOutcome.ok (PhaseOutcome.exited 0) PhaseOutcome.cancelledSig)]
      = false ∧
    drain_model
      [("id0", run_job_model IsoOutcome.ok (PhaseOutcome.exited 0) PhaseOutcome.cancelledSig)]
      = Except.error () := by
  refine ⟨rfl, rfl⟩

/-- Claim C3: for every run whose collection loop completes, the final
exit code (source line 670) is 0 iff every job's recorded status is
`"passed"`; the "no executions found" exit code 1 (line 551) is non-zero
and distinct from the "at least one failure" exit code 2. -/
theorem C3_exit_code_spec (specs : List (String × IsoOutcome × PhaseOutcome × PhaseOutcome))
    (rs : List (String × String))
    (h : drain_model (run_job_jobs specs) = Except.ok rs) :
    (overall_exit_code rs = 0 ↔ rs.all (fun r => r.2 == "passed") = true) ∧
    no_execs_exit_code ≠ 0 ∧ no_execs_exit_code ≠ 2 ∧
    (rs.all (fun r => r.2 == "passed") = false →
      overall_exit_code rs = 2 ∧ overall_exit_code rs ≠ 0 ∧
      overall_exit_code rs ≠ no_execs_exit_code) := by
  have hpre : ∀ j ∈ run_job_jobs specs, ∀ s, j.2.exitR = JobExit.returned s →
      s = "passed" ∨ s = "failed" := by
    intro j hj s hs
    simp only [run_job_jobs, List.mem_map] at hj
    obtain ⟨sp, _, rfl⟩ := hj
    exact run_job_model_returned _ _ _ _ hs
  have hst := drain_statuses _ hpre rs h
  have hiff : overall_exit_code rs = 0 ↔ rs.all (fun r => r.2 == "passed") = true := by
    constructor
    · intro h0
      have hc : rs.countP (fun r => r.2 == "failed") = 0 := by
        by_contra hne
        simp [overall_exit_code, hne] at h0
      rw [List.countP_eq_zero] at hc
      rw [List.all_eq_true]
      intro r hr
      rcases hst r hr with hp | hf
      · simp [hp]
      · exact absurd (by simp [hf]) (hc r hr)
    · intro hall
      have hc : rs.countP (fun r => r.2 == "failed") = 0 := by
        rw [List.countP_eq_zero]
        intro a ha hf
        have hp := List.all_eq_true.mp hall a ha
        rw [beq_iff_eq] at hp hf
        rw [hp] at hf
        exact absurd hf (by decide)
      simp [overall_exit_code, hc]
  refine ⟨hiff, by decide, by decide, ?_⟩
  intro hfail
  have hne : overall_exit_code rs ≠ 0 := by
    intro h0
    rw [hiff.mp h0] at hfail
    cases hfail
  have h2 : overall_exit_code rs = 2 := by
    simp only [overall_exit_code] at hne ⊢
    by_cases hc : rs.countP (fun r => r.2 == "failed") = 0
    · exact absurd (by simp [hc]) hne
    · simp [hc]
  exact ⟨h2, hne, by rw [h2]; decide⟩

/-- Claim C3, witness: one job that passes; the collection loop yields
it, and the exit code is 0. -/
theorem C3_exit_code_spec_witness :
    ((overall_exit_code [("a", "passed")] = 0 ↔
      ([("a", "passed")].all (fun r => r.2 == "passed")) = true) ∧
     no_execs_exit_code ≠ 0 ∧ no_execs_exit_code ≠ 2 ∧
     (([("a", "passed")].all (fun r => r.2 == "passed")) = false →
       overall_exit_code [("a", "passed")] = 2 ∧
       overall_exit_code [("a", "passed")] ≠ 0 ∧
       overall_exit_code [("a", "passed")] ≠ no_execs_exit_code)) :=
  C3_exit_code_spec [("a", IsoOutcome.ok, PhaseOutcome.exited 0, PhaseOutcome.exited 0)]
    [("a", "passed")] rfl

/-- Claim C4, counterexample: isolation fails for job `a` in exactly the
claim's named scenarios (base directory unreadable, or destination
uncreatable), so `copytree` raises before `out_dir/<sanitized-id>/`
exists; the collection-loop handler then raises `FileNotFoundError` at
its own log append (source line 627) inside the `except` suite, which
aborts the whole run: job `a` never reaches any terminal status (the
engine has no `"errored"` status anywhere), and even the passing sibling
`b`'s result is lost — the failure is not fatal for that job only. -/
theorem C4_isolation_errored_cex :
    drain_model
      [("a", run_job_model (IsoOutcome.failed false)
          (PhaseOutcome.exited 0) (PhaseOutcome.exited 0)),
       ("b", run_job_model IsoOutcome.ok
          (PhaseOutcome.exited 0) (PhaseOutcome.exited 0))]
      = Except.error () ∧
    totalCoverage
      [("a", run_job_model (IsoOutcome.failed false)
          (PhaseOutcome.exited 0) (PhaseOutcome.exited 0)),
       ("b", run_job_model IsoOutcome.ok
          (PhaseOutcome.exited 0) (PhaseOutcome.exited 0))]
      = false ∧
    ("failed" : String) ≠ "errored" := by
  refine ⟨rfl, rfl, by decide⟩

/-- Claim C4 (amended): if workspace isolation fails for a job, the
`shutil.copytree` exception propagates out of `run_job` (it is not
caught there) and the compile and run phases are never attempted for
that job; but the rest of the claim holds only when `copytree` failed
after already creating the job's output directory: then the collection
loop records the terminal status `"failed"` (the engine has no
`"errored"` status) and every sibling's result is still collected.  In
the claim's own named scenarios — base directory unreadable or
destination uncreatable — the job's output directory does not exist, so
the handler's log append (line 627) raises `FileNotFoundError` inside
the `except` suite and the entire run aborts with no result set,
losing all sibling results. -/
theorem C4_isolation_failure_spec (i : String) (co ro : PhaseOutcome)
    (siblings : List (String × RunJobOut))
    (h : siblings.all (fun j => !crashesDrain j.2) = true) :
    (∀ d : Bool,
      (run_job_model (IsoOutcome.failed d) co ro).compileInvoked = false ∧
      (run_job_model (IsoOutcome.failed d) co ro).runInvoked = false) ∧
    drain_model ((i, run_job_model (IsoOutcome.failed false) co ro) :: siblings)
      = Except.error () ∧
    drain_model ((i, run_job_model (IsoOutcome.failed true) co ro) :: siblings)
      = (drain_model siblings).map (fun rs => (i, "failed") :: rs) ∧
    totalCoverage ((i, run_job_model (IsoOutcome.failed true) co ro) :: siblings)
      = true := by
  refine ⟨fun d => ⟨rfl, rfl⟩, rfl, rfl, ?_⟩
  have hall : ((i, run_job_model (IsoOutcome.failed true) co ro) :: siblings).all
      (fun j => !crashesDrain j.2) = true := by
    rw [List.all_cons, Bool.and_eq_true]
    exact ⟨rfl, h⟩
  obtain ⟨rs, hok, hids⟩ := drain_ok_of_no_crash _ hall
  simp [totalCoverage, hok, hids]

/-- Claim C4, witness: an isolation-failed job next to one passing
sibling, in both failure modes: with the output directory never created
the run aborts; with it created the job is recorded `"failed"` and the
sibling's result is kept. -/
theorem C4_isolation_failure_spec_witness :
    ((∀ d : Bool,
      (run_job_model (IsoOutcome.failed d)
        (PhaseOutcome.exited 0) (PhaseOutcome.exited 0)).compileInvoked = false ∧
      (run_job_model (IsoOutcome.failed d)
        (PhaseOutcome.exited 0) (PhaseOutcome.exited 0)).runInvoked = false) ∧
     drain_model (("a", run_job_model (IsoOutcome.failed false)
          (PhaseOutcome.exited 0) (PhaseOutcome.exited 0)) ::
        [("b", run_job_model IsoOutcome.ok (PhaseOutcome.exited 0) (PhaseOutcome.exited 0))])
      = Except.error () ∧
     drain_model (("a", run_job_model (IsoOutcome.failed true)
          (PhaseOutcome.exited 0) (PhaseOutcome.exited 0)) ::
        [("b", run_job_model IsoOutcome.ok (PhaseOutcome.exited 0) (PhaseOutcome.exited 0))])
      = (drain_model [("b", run_job_model IsoOutcome.ok
            (PhaseOutcome.exited 0) (PhaseOutcome.exited 0))]).map
          (fun rs => ("a", "failed") :: rs) ∧
     totalCoverage (("a", run_job_model (IsoOutcome.failed true)
          (PhaseOutcome.exited 0) (PhaseOutcome.exited 0)) ::
        [("b", run_job_model IsoOutcome.ok (PhaseOutcome.exited 0) (PhaseOutcome.exited 0))])
      = true) :=
  C4_isolation_failure_spec "a" (PhaseOutcome.exited 0) (PhaseOutcome.exited 0)
    [("b", run_job_model IsoOutcome.ok (PhaseOutcome.exited 0) (PhaseOutcome.exited 0))]
    (by decide)

lemma countP_insertById (p : String × String → Bool) (x : String × String) :
    ∀ l, (insertById x l).countP p = l.countP p + (if p x then 1 else 0) := by
  intro l
  induction l with
  | nil => simp [insertById, List.countP_cons]
  | cons y ys ih =>
    simp only [insertById]
    split_ifs with hle hx hx
    · simp [List.countP_cons, hx]
    · simp [List.countP_cons, hx]
    · simp [List.countP_cons, ih, hx]
      omega
    · simp [List.countP_cons, ih, hx]

lemma length_insertById (x : String × String) :
    ∀ l, (insertById x l).length = l.length + 1 := by
  intro l
  induction l with
  | nil => rfl
  | cons y ys ih =>
    simp only [insertById]
    split_ifs with hle
    · simp
    · simp [ih]

lemma report_tests_countP (p : String × String → Bool) :
    ∀ rs, (report_tests rs).countP p = rs.countP p := by
  intro rs
  induction rs with
  | nil => rfl
  | cons r rest ih =>
    simp only [report_tests, List.foldr_cons] at ih ⊢
    rw [countP_insertById, ih, List.countP_cons]

lemma report_tests_length :
    ∀ rs : List (String × String), (report_tests rs).length = rs.length := by
  intro rs
  induction rs with
  | nil => rfl
  | cons r rest ih =>
    simp only [report_tests, List.foldr_cons] at ih ⊢
    rw [length_insertById, ih, List.length_cons]

/-- Claim C6: for every result set (including the empty one), the report
summary counters computed by `make_report_json` (source lines 358-361)
equal the true aggregates of the per-job entry list `tests` (built from
the same results, sorted by id, at line 375): `total` is the number of
entries and `passed`/`failed`/`cancelled` count the entries with that
status; for an empty result set every counter and the duration are zero
(line 406) and the computation is total (no error). -/
theorem C6_report_summary_aggregates (rs : List (String × String)) (s e : Int) :
    (make_report_summary rs s e).total = (report_tests rs).length ∧
    (make_report_summary rs s e).passed
      = (report_tests rs).countP (fun r => r.2 == "passed") ∧
    (make_report_summary rs s e).failed
      = (report_tests rs).countP (fun r => r.2 == "failed") ∧
    (make_report_summary rs s e).cancelled
      = (report_tests rs).countP (fun r => r.2 == "cancelled") ∧
    make_report_summary [] s e = ⟨0, 0, 0, 0, 0⟩ := by
  refine ⟨?_, ?_, ?_, ?_, rfl⟩ <;>
    simp [make_report_summary, report_tests_length, report_tests_countP]

/-- Claim C9: along every execution of the scheduler (modelled after the
semaphore of source lines 570-584, which is held for the whole of
`run_job`, i.e. for the isolation, compile and run phases), the number
of admitted jobs — those in an active, non-queued non-terminal phase —
never exceeds the configured ceiling. -/
theorem C9_sched_ceiling (c n : Nat) (s : SchedState) (h : SchedReach c n s) :
    s.active ≤ c := by
  induction h with
  | init => simp
  | step _ hstep ih =>
    cases hstep with
    | enter w a f hlt => simpa using hlt
    | finish w a f =>
      simp only at ih ⊢
      omega

/-- Claim C9, witness: with ceiling 2 and 2 submitted jobs, the state
after admitting both and finishing one is reachable and respects the
ceiling. -/
theorem C9_sched_ceiling_witness : (⟨0, 1, 1⟩ : SchedState).active ≤ 2 :=
  C9_sched_ceiling 2 2 ⟨0, 1, 1⟩ (by
    have h0 : SchedReach 2 2 ⟨2, 0, 0⟩ := SchedReach.init
    have h1 : SchedReach 2 2 ⟨1, 1, 0⟩ := h0.step (SchedStep.enter 1 0 0 (by omega))
    have h2 : SchedReach 2 2 ⟨0, 2, 0⟩ := h1.step (SchedStep.enter 0 1 0 (by omega))
    exact h2.step (SchedStep.finish 0 1 0))

/-- Claim C10, witness for the amended theorem at a concrete input. -/
theorem C10_sanitize_for_path_spec_witness :
    (sanitize_for_path ['a']).all allowedChar = true ∧
    (sanitize_for_path ['a']).length ≤ 150 ∧
    sanitize_for_path ['a'] = sanitize_for_path ['a'] := by
  have h := C10_sanitize_for_path_spec ['a'] ['a']
  exact ⟨h.1, h.2.1, h.2.2 rfl⟩

end FuzzRunner
